import Mathlib

/-!
Verification of the token-cache core of a Rust OAuth2 client library
(scope fingerprinting, token store, authenticator retry loop, and the
service-account token exchange), via a shallow embedding of the source.

The per-scope hash used by the source is the external `seahash` crate; the
embedding is parametric in that hash function (`hf : String → Nat`), since
every property of interest holds for an arbitrary per-scope hash.
-/

/-- Embedding of `HashedScopes::from` (storage.rs): the fingerprint of a scope
list is the XOR-fold of the per-scope hashes, starting from `0u64`.  XOR of
two values below `2^64` stays below `2^64`, so `Nat` is an exact model of the
`u64` arithmetic here. -/
def fingerprint (hf : String → Nat) (scopes : List String) : Nat :=
  scopes.foldl (fun h s => h ^^^ hf s) 0

lemma foldl_xor_shift (hf : String → Nat) (l : List String) (i : Nat) :
    l.foldl (fun h s => h ^^^ hf s) i = i ^^^ l.foldl (fun h s => h ^^^ hf s) 0 := by
  induction l generalizing i with
  | nil => simp
  | cons s l ih =>
    simp only [List.foldl_cons]
    rw [ih (i ^^^ hf s), ih (0 ^^^ hf s), Nat.zero_xor, Nat.xor_assoc]

lemma fingerprint_cons (hf : String → Nat) (s : String) (l : List String) :
    fingerprint hf (s :: l) = hf s ^^^ fingerprint hf l := by
  unfold fingerprint
  simp only [List.foldl_cons]
  rw [foldl_xor_shift, Nat.zero_xor]

lemma fingerprint_append (hf : String → Nat) (a b : List String) :
    fingerprint hf (a ++ b) = fingerprint hf a ^^^ fingerprint hf b := by
  unfold fingerprint
  rw [List.foldl_append, foldl_xor_shift]

lemma fingerprint_perm_aux (hf : String → Nat) {l₁ l₂ : List String}
    (p : l₁.Perm l₂) : fingerprint hf l₁ = fingerprint hf l₂ := by
  induction p with
  | nil => rfl
  | cons x _ ih => rw [fingerprint_cons, fingerprint_cons, ih]
  | swap x y l =>
    rw [fingerprint_cons, fingerprint_cons, fingerprint_cons, fingerprint_cons,
      ← Nat.xor_assoc, ← Nat.xor_assoc, Nat.xor_comm (hf y) (hf x)]
  | trans _ _ ih₁ ih₂ => rw [ih₁, ih₂]

lemma fingerprint_replicate_two_mul (hf : String → Nat) (m : Nat) (s : String) :
    fingerprint hf (List.replicate (m + m) s) = 0 := by
  induction m with
  | zero => rfl
  | succ m ih =>
    have h : m + 1 + (m + 1) = (m + m) + 1 + 1 := by omega
    rw [h, List.replicate_succ, List.replicate_succ, fingerprint_cons,
      fingerprint_cons, ← Nat.xor_assoc, Nat.xor_self, Nat.zero_xor, ih]

lemma filter_beq_eq_replicate_count (l : List String) (s : String) :
    l.filter (fun x => x == s) = List.replicate (l.count s) s := by
  induction l with
  | nil => rfl
  | cons b l ih =>
    by_cases hb : b = s
    · subst hb
      simp [List.filter_cons, List.count_cons, ih, List.replicate_succ]
    · have hb' : (b == s) = false := by simpa using hb
      simp [List.filter_cons, List.count_cons, hb', ih]

/-- Modelled from the spec: the `Token` data model of types.rs (not present in
the sources given): access token, token type, optional refresh token, optional
lifetime in seconds and optional absolute expiry timestamp.  Field names follow
the uses in service_account.rs and authenticator.rs. -/
structure Token where
  access_token : String
  token_type : String
  refresh_token : Option String
  expires_in : Option Int
  expires_in_timestamp : Option Int
deriving DecidableEq, Repr

/-- Modelled from the spec: `Token::expired` (types.rs, not present in the
sources given): a token is expired iff its expiry timestamp is present and is
at or before the current time.  The current time is passed explicitly. -/
def Token.expiredAt (t : Token) (now : Int) : Bool :=
  match t.expires_in_timestamp with
  | some ts => decide (ts ≤ now)
  | none => false

/-- Embedding of `JSONToken` (storage.rs): a stored entry, the granted scope
list together with the token. -/
structure JSONToken where
  scopes : List String
  token : Token
deriving DecidableEq, Repr

/-- The `BTreeMap<u64, JSONToken>` of `JSONTokens` (storage.rs) is modelled as
an association list sorted strictly by key; iteration order of the map is the
list order. -/
abbrev TokenMap := List (Nat × JSONToken)

/-- The sortedness invariant of the `BTreeMap` model: keys strictly increase
along the list. -/
def MapSorted (m : TokenMap) : Prop :=
  List.Pairwise (fun a b : Nat × JSONToken => a.1 < b.1) m

instance : DecidablePred MapSorted := fun m =>
  inferInstanceAs (Decidable (List.Pairwise _ m))

/-- `BTreeMap::get` on the sorted-list model: walk the list, stopping early
once the keys exceed the one sought. -/
def mapGet : TokenMap → Nat → Option JSONToken
  | [], _ => none
  | (k, v) :: rest, key =>
    if key < k then none
    else if key = k then some v
    else mapGet rest key

/-- `BTreeMap::insert` on the sorted-list model: place the new pair at its
position, replacing an existing pair with the same key. -/
def mapInsert : TokenMap → Nat → JSONToken → TokenMap
  | [], key, v => [(key, v)]
  | (k, w) :: rest, key, v =>
    if key < k then (key, v) :: (k, w) :: rest
    else if key = k then (key, v) :: rest
    else (k, w) :: mapInsert rest key v

lemma mapGet_eq_find? {m : TokenMap} (hs : MapSorted m) (key : Nat) :
    mapGet m key = (m.find? (fun p => p.1 == key)).map Prod.snd := by
  induction m with
  | nil => rfl
  | cons p rest ih =>
    obtain ⟨k, v⟩ := p
    rcases hs with _ | ⟨hlt, hs'⟩
    rcases Nat.lt_trichotomy key k with h | h | h
    · have hhead : ((k, v).1 == key) = false := by
        simp [Nat.ne_of_gt h]
      have hrest : rest.find? (fun p => p.1 == key) = none := by
        apply List.find?_eq_none.mpr
        intro q hq
        have : k < q.1 := hlt q hq
        simp [Nat.ne_of_gt (Nat.lt_trans h this)]
      simp [mapGet, h, List.find?_cons, hhead, hrest]
    · subst h
      simp [mapGet, List.find?_cons]
    · have hhead : ((k, v).1 == key) = false := by
        simp [Nat.ne_of_lt h]
      have hne : ¬ key < k := Nat.not_lt.mpr (Nat.le_of_lt h)
      have hne' : ¬ key = k := fun hk => absurd hk (by omega)
      simp [mapGet, hne, hne', List.find?_cons, hhead, ih hs']

lemma mem_mapInsert {m : TokenMap} {key : Nat} {v : JSONToken}
    {p : Nat × JSONToken} (hp : p ∈ mapInsert m key v) :
    p = (key, v) ∨ p ∈ m := by
  induction m with
  | nil => simpa [mapInsert] using hp
  | cons q rest ih =>
    obtain ⟨k, w⟩ := q
    by_cases h1 : key < k
    · simp only [mapInsert, if_pos h1, List.mem_cons] at hp
      rcases hp with h | h | h
      · exact Or.inl h
      · exact Or.inr (by simp [h])
      · exact Or.inr (List.mem_cons_of_mem _ h)
    · by_cases h2 : key = k
      · simp only [mapInsert, if_neg h1, if_pos h2, List.mem_cons] at hp
        rcases hp with h | h
        · exact Or.inl (by simp [h, h2])
        · exact Or.inr (List.mem_cons_of_mem _ h)
      · simp only [mapInsert, if_neg h1, if_neg h2, List.mem_cons] at hp
        rcases hp with h | h
        · exact Or.inr (by simp [h])
        · rcases ih h with h' | h'
          · exact Or.inl h'
          · exact Or.inr (List.mem_cons_of_mem _ h')

lemma mapSorted_mapInsert {m : TokenMap} (hs : MapSorted m)
    (key : Nat) (v : JSONToken) : MapSorted (mapInsert m key v) := by
  induction m with
  | nil => simp [mapInsert, MapSorted]
  | cons q rest ih =>
    obtain ⟨k, w⟩ := q
    rcases hs with _ | ⟨hlt, hs'⟩
    by_cases h1 : key < k
    · simp only [mapInsert, if_pos h1]
      refine List.Pairwise.cons ?_ (List.Pairwise.cons hlt hs')
      intro q hq
      rcases List.mem_cons.mp hq with h | h
      · simpa [h] using h1
      · exact Nat.lt_trans h1 (hlt q h)
    · by_cases h2 : key = k
      · subst h2
        simp only [mapInsert, if_neg h1, if_pos rfl]
        exact List.Pairwise.cons hlt hs'
      · simp only [mapInsert, if_neg h1, if_neg h2]
        refine List.Pairwise.cons ?_ (ih hs')
        intro q hq
        rcases mem_mapInsert hq with h | h
        · subst h; omega
        · exact hlt q h

lemma mapGet_mapInsert_self (m : TokenMap) (key : Nat) (v : JSONToken) :
    mapGet (mapInsert m key v) key = some v := by
  induction m with
  | nil => simp [mapInsert, mapGet]
  | cons q rest ih =>
    obtain ⟨k, w⟩ := q
    by_cases h1 : key < k
    · simp [mapInsert, h1, mapGet]
    · by_cases h2 : key = k
      · simp [mapInsert, h1, h2, mapGet]
      · have h3 : ¬ key < k := h1
        simp [mapInsert, h1, h2, mapGet, h3, ih]

lemma mapGet_mapInsert_ne (m : TokenMap) (key : Nat) (v : JSONToken)
    {key' : Nat} (hne : key' ≠ key) :
    mapGet (mapInsert m key v) key' = mapGet m key' := by
  induction m with
  | nil =>
    rcases Nat.lt_trichotomy key' key with h | h | h
    · simp [mapInsert, mapGet, h]
    · exact absurd h hne
    · simp [mapInsert, mapGet, Nat.lt_asymm h, hne]
  | cons q rest ih =>
    obtain ⟨k, w⟩ := q
    by_cases h1 : key < k
    · by_cases ha : key' < key
      · simp [mapInsert, h1, mapGet, ha, Nat.lt_trans ha h1]
      · simp [mapInsert, h1, mapGet, ha, hne]
    · by_cases h2 : key = k
      · subst h2
        by_cases ha : key' < key
        · simp [mapInsert, h1, mapGet, ha]
        · simp [mapInsert, h1, mapGet, ha, hne]
      · simp only [mapInsert, if_neg h1, if_neg h2]
        by_cases ha : key' < k
        · simp [mapGet, ha]
        · by_cases hb : key' = k
          · simp [mapGet, ha, hb]
          · simp [mapGet, ha, hb, ih]

/-- The superset scan of `JSONTokens::get` (storage.rs): walk the map values in
iteration order and return the token of the first entry whose granted scopes
contain every requested scope. -/
def supersetScan (scopes : List String) : TokenMap → Option Token
  | [] => none
  | (_, t) :: rest =>
    if scopes.all (fun s => t.scopes.any (fun u => u == s)) then some t.token
    else supersetScan scopes rest

/-- Embedding of `JSONTokens::get` (storage.rs): exact fingerprint match first,
then the superset scan, else no token. -/
def JSONTokens.get (hf : String → Nat) (m : TokenMap) (scopes : List String) :
    Option Token :=
  match mapGet m (fingerprint hf scopes) with
  | some json_token => some json_token.token
  | none => supersetScan scopes m

/-- Embedding of `JSONTokens::set` (storage.rs): insert the entry under the
fingerprint of the given scopes (the `to_string` conversion of the scope slice
is the identity in this model). -/
def JSONTokens.set (hf : String → Nat) (m : TokenMap) (scopes : List String)
    (token : Token) : TokenMap :=
  mapInsert m (fingerprint hf scopes) ⟨scopes, token⟩

/-- Embedding of `JSONTokens::all_tokens` (storage.rs): the entry values in map
iteration order; this is what `DiskStorage::set` hands to the background writer
and what the writer serializes to the file. -/
def JSONTokens.allTokens (m : TokenMap) : List JSONToken :=
  m.map Prod.snd

/-- Embedding of `JSONTokens::load_from_file` (storage.rs) after the JSON parse:
rebuild the map from the deserialized entry collection, recomputing each
entry's fingerprint from its recorded scopes (`collect` into a `BTreeMap`
inserts in order, later entries overwriting earlier ones with the same key). -/
def JSONTokens.loadFromEntries (hf : String → Nat) (entries : List JSONToken) :
    TokenMap :=
  entries.foldl (fun acc jt => mapInsert acc (fingerprint hf jt.scopes) jt) []

/-- The store invariant maintained by `new`, `set` and `load_from_file`: every
entry is keyed by the fingerprint of its own recorded scopes. -/
def WellKeyed (hf : String → Nat) (m : TokenMap) : Prop :=
  ∀ p ∈ m, p.1 = fingerprint hf p.2.scopes

instance (hf : String → Nat) : DecidablePred (WellKeyed hf) := fun m =>
  inferInstanceAs (Decidable (∀ p ∈ m, _))

lemma wellKeyed_set {hf : String → Nat} {m : TokenMap} (hw : WellKeyed hf m)
    (scopes : List String) (token : Token) :
    WellKeyed hf (JSONTokens.set hf m scopes token) := by
  intro p hp
  rcases mem_mapInsert hp with h | h
  · subst h; rfl
  · exact hw p h

lemma supersetScan_eq_find? (scopes : List String) (m : TokenMap) :
    supersetScan scopes m =
      (m.find? (fun p => scopes.all (fun s => p.2.scopes.any (fun u => u == s)))).map
        (fun p => p.2.token) := by
  induction m with
  | nil => rfl
  | cons q rest ih =>
    obtain ⟨k, t⟩ := q
    by_cases h : scopes.all (fun s => t.scopes.any (fun u => u == s))
    · simp [supersetScan, h, List.find?_cons]
    · have h' : (scopes.all (fun s => t.scopes.any (fun u => u == s))) = false :=
        Bool.not_eq_true _ ▸ by simpa using h
      simp [supersetScan, h', List.find?_cons, ih]

lemma mapInsert_append {m : TokenMap} {key : Nat} (v : JSONToken)
    (hk : ∀ p ∈ m, p.1 < key) : mapInsert m key v = m ++ [(key, v)] := by
  induction m with
  | nil => rfl
  | cons q rest ih =>
    obtain ⟨k, w⟩ := q
    have hklt : k < key := hk (k, w) (by simp)
    have h1 : ¬ key < k := by omega
    have h2 : ¬ key = k := by omega
    simp only [mapInsert, if_neg h1, if_neg h2, List.cons_append,
      List.cons.injEq, true_and]
    exact ih (fun p hp => hk p (List.mem_cons_of_mem _ hp))

lemma loadFromEntries_acc (hf : String → Nat) (m acc : TokenMap)
    (hs : MapSorted (acc ++ m)) (hw : WellKeyed hf m) :
    (m.map Prod.snd).foldl
        (fun a jt => mapInsert a (fingerprint hf jt.scopes) jt) acc = acc ++ m := by
  induction m generalizing acc with
  | nil => simp
  | cons q m' ih =>
    obtain ⟨k, jt⟩ := q
    have hk : fingerprint hf jt.scopes = k :=
      ((hw (k, jt) (by simp))).symm
    have hlt : ∀ p ∈ acc, p.1 < k := by
      intro p hp
      have := (List.pairwise_append.mp hs).2.2 p hp (k, jt) (by simp)
      exact this
    have hstep : mapInsert acc (fingerprint hf jt.scopes) jt = acc ++ [(k, jt)] := by
      rw [hk]; exact mapInsert_append jt hlt
    have hs' : MapSorted ((acc ++ [(k, jt)]) ++ m') := by
      rw [List.append_assoc]
      simpa using hs
    have hw' : WellKeyed hf m' := fun p hp => hw p (List.mem_cons_of_mem _ hp)
    simp only [List.map_cons, List.foldl_cons, hstep]
    rw [ih (acc ++ [(k, jt)]) hs' hw', List.append_assoc]
    simp

lemma loadFromEntries_allTokens (hf : String → Nat) (m : TokenMap)
    (hs : MapSorted m) (hw : WellKeyed hf m) :
    JSONTokens.loadFromEntries hf (JSONTokens.allTokens m) = m := by
  have := loadFromEntries_acc hf m [] (by simpa using hs) hw
  simpa [JSONTokens.loadFromEntries, JSONTokens.allTokens] using this

/-- Embedding of the `Retry` decision type of the authenticator delegate
(`on_storage_failure` result): skip, abort, or retry after a delay.  The delay
is modelled as an abstract duration (`Nat`). -/
inductive Retry where
  | skip : Retry
  | abort : Retry
  | after (d : Nat) : Retry
deriving DecidableEq, Repr

/-- Embedding of `RefreshResult` (types.rs, used in authenticator.rs): a
low-level error, a rejected refresh, or a fresh token. -/
inductive RefreshResult where
  | rrError : RefreshResult
  | rrRefreshError : RefreshResult
  | success (t : Token) : RefreshResult
deriving DecidableEq, Repr

/-- Opaque storage-error value (the `io::Error` carried by the store). -/
structure StorageErr where
  code : Nat
deriving DecidableEq, Repr

/-- The collaborators and outcomes visible to one iteration of the
`AuthenticatorImpl::get_token` loop (authenticator.rs): the store read result,
the refresh-flow result (an `Except` for the transport-level `?` propagation),
the token-getter result, whether the store write fails, and the delegate's
storage-failure policy.  Each loop iteration may observe a different
environment, so the loop below consumes a stream of these. -/
structure IterEnv where
  now : Int
  storeGetRes : Except StorageErr (Option Token)
  refreshCall : Except Unit RefreshResult
  fetchRes : Except Unit Token
  setErr : Option StorageErr
  storagePolicy : Bool → StorageErr → Retry

/-- Terminal outcomes of `AuthenticatorImpl::get_token`: a token, the error
variants actually returned (`RequestError::Refresh`, `RequestError::Cache`, a
propagated transport error, a propagated token-getter error), or the panic of
`refresh_token.unwrap()` on a stored expired token with no refresh token. -/
inductive FinalRes where
  | okTok (t : Token) : FinalRes
  | errRefresh : FinalRes
  | errCache : FinalRes
  | errClient : FinalRes
  | errFetch : FinalRes
  | panicked : FinalRes
deriving DecidableEq, Repr

/-- Result of one pass through the body of the `loop` in
`AuthenticatorImpl::get_token`: either the call returns, or the iteration ends
in `tokio::timer::delay_for(d)` followed by another pass. -/
inductive IterOut where
  | done (r : FinalRes) : IterOut
  | again (d : Nat) : IterOut
deriving DecidableEq, Repr

/-- Embedding of one pass through the loop body of
`AuthenticatorImpl::get_token` (authenticator.rs), transcribed arm by arm. -/
def getTokenIter (env : IterEnv) : IterOut :=
  match env.storeGetRes with
  | .ok (some t) =>
    if !(t.expiredAt env.now) then .done (.okTok t)
    else
      match t.refresh_token with
      | none => .done .panicked
      | some _ =>
        match env.refreshCall with
        | .error _ => .done .errClient
        | .ok .rrError => .done .errRefresh
        | .ok .rrRefreshError => .done .errRefresh
        | .ok (.success t') =>
          match env.setErr with
          | none => .done (.okTok t')
          | some e =>
            match env.storagePolicy true e with
            | .skip => .done (.okTok t')
            | .abort => .done .errCache
            | .after d => .again d
  | .ok none =>
    match env.fetchRes with
    | .error _ => .done .errFetch
    | .ok t =>
      match env.setErr with
      | none => .done (.okTok t)
      | some e =>
        match env.storagePolicy true e with
        | .skip => .done (.okTok t)
        | .abort => .done .errCache
        | .after d => .again d
  | .error e =>
    match env.storagePolicy false e with
    | .abort => .done .errCache
    | .skip => .done .errCache
    | .after d => .again d

/-- The `loop` of `AuthenticatorImpl::get_token`, run against the stream of
per-iteration environments starting at index `i`, with explicit fuel (the loop
itself is unbounded when the delegate keeps answering `RetryAfter`).  Returns
the final outcome together with the list of delay durations slept, or `none`
when the fuel runs out. -/
def getTokenLoop (envs : Nat → IterEnv) : Nat → Nat → Option (FinalRes × List Nat)
  | _, 0 => none
  | i, fuel + 1 =>
    match getTokenIter (envs i) with
    | .done r => some (r, [])
    | .again d =>
      match getTokenLoop envs (i + 1) fuel with
      | none => none
      | some (r, ds) => some (r, d :: ds)

/-- Embedding of `ServiceAccountKey` (service_account.rs). -/
structure ServiceAccountKey where
  key_type : Option String
  project_id : Option String
  private_key_id : Option String
  private_key : String
  client_email : String
  client_id : Option String
  auth_uri : Option String
  token_uri : String
  auth_provider_x509_cert_url : Option String
  client_x509_cert_url : Option String
deriving DecidableEq, Repr

/-- Embedding of `Claims` (service_account.rs): the JWT claim set built for one
signing operation. -/
structure Claims where
  iss : String
  aud : String
  exp : Int
  iat : Int
  subject : Option String
  scope : String
deriving DecidableEq, Repr

/-- Modelled from the spec: `helper::join` (helper.rs, not present in the
sources given) joins the scopes with single spaces in caller-given order. -/
def joinScopes (scopes : List String) : String :=
  String.intercalate " " scopes

/-- Embedding of `Claims::new` (service_account.rs).  The source takes the
current time from `chrono::Utc::now().timestamp()`; it is passed here as
`now`. -/
def Claims.new (now : Int) (key : ServiceAccountKey) (scopes : List String)
    (subject : Option String) : Claims :=
  let iat := now
  let expiry := iat + 3600 - 5
  { iss := key.client_email
    aud := key.token_uri
    exp := expiry
    iat := iat
    subject := subject
    scope := joinScopes scopes }

/-- Embedding of the `TokenResponse` schema (service_account.rs): every field
optional, checked for presence after parsing. -/
structure TokenResponse where
  access_token : Option String
  token_type : Option String
  expires_in : Option Int
deriving DecidableEq, Repr

/-- Embedding of `JsonErrorOr` (types.rs): either an explicit error object or
the expected data. -/
inductive JsonErrorOr (α : Type) where
  | jsonErr : JsonErrorOr α
  | jsonData (a : α) : JsonErrorOr α
deriving DecidableEq, Repr

/-- The error variants of `RequestError` reachable from the service-account
path. -/
inductive SAErr where
  | lowLevel : SAErr
  | clientErr : SAErr
  | parseErr : SAErr
  | serverMessage : SAErr
  | badServerResponse : SAErr
deriving DecidableEq, Repr

/-- Embedding of `ServiceAccountAccessImpl::request_token` (service_account.rs)
from the point the HTTP response body has been read.  Signing and transport are
external effects, passed in as their outcomes: `signRes` is the result of
`sign_claims` and `respond` maps the signed assertion to the parse result of
the response body.  The response-handling match is transcribed arm by arm. -/
def requestToken (now : Int) (signRes : Except Unit String)
    (respond : String → Except SAErr (JsonErrorOr TokenResponse)) :
    Except SAErr Token :=
  match signRes with
  | .error _ => .error .lowLevel
  | .ok signed =>
    match respond signed with
    | .error e => .error e
    | .ok .jsonErr => .error .serverMessage
    | .ok (.jsonData r) =>
      match r.access_token, r.token_type, r.expires_in with
      | some access_token, some token_type, some expires_in =>
        .ok { access_token := access_token
              token_type := token_type
              refresh_token := none
              expires_in := some expires_in
              expires_in_timestamp := some (now + expires_in) }
      | _, _, _ => .error .badServerResponse

/-- Embedding of `ServiceAccountAccessImpl::get_token` (service_account.rs):
return a cached, non-expired token if the store lookup finds one; otherwise
request a fresh token and, only on success, store it under the fingerprint of
the requested scopes.  Returns the result together with the cache state after
the call. -/
def saGetToken (hf : String → Nat) (cache : TokenMap) (now : Int)
    (signRes : Except Unit String)
    (respond : String → Except SAErr (JsonErrorOr TokenResponse))
    (scopes : List String) : Except SAErr Token × TokenMap :=
  let hit :=
    match JSONTokens.get hf cache scopes with
    | some t => if !(t.expiredAt now) then some t else none
    | none => none
  match hit with
  | some t => (.ok t, cache)
  | none =>
    match requestToken now signRes respond with
    | .error e => (.error e, cache)
    | .ok token => (.ok token, JSONTokens.set hf cache scopes token)

/-- Claim C1: for every token map and requested scope list, the store lookup
first returns the token of the entry stored under the exact fingerprint of the
requested scopes if such an entry exists; otherwise it returns the token of the
first entry, in the map's iteration order, whose granted-scope list contains
every requested scope; otherwise it returns no token. -/
theorem claim_c1_lookup (hf : String → Nat) (m : TokenMap) (scopes : List String)
    (hs : MapSorted m) :
    JSONTokens.get hf m scopes =
      match m.find? (fun p => p.1 == fingerprint hf scopes) with
      | some p => some p.2.token
      | none =>
        (m.find? (fun p => scopes.all (fun s => p.2.scopes.any (fun u => u == s)))).map
          (fun p => p.2.token) := by
  unfold JSONTokens.get
  rw [mapGet_eq_find? hs, supersetScan_eq_find?]
  cases m.find? (fun p => p.1 == fingerprint hf scopes) with
  | none => simp
  | some p => simp

/-- Witness for C1 on a concrete two-entry store: the request `["d"]` has no
exact fingerprint match and is served by the first superset entry. -/
theorem claim_c1_lookup_witness :
    MapSorted
        [(2, ⟨["ab"], ⟨"a", "t", none, none, none⟩⟩),
         (3, ⟨["abc", "d"], ⟨"b", "t", none, none, none⟩⟩)] ∧
      JSONTokens.get String.length
          [(2, ⟨["ab"], ⟨"a", "t", none, none, none⟩⟩),
           (3, ⟨["abc", "d"], ⟨"b", "t", none, none, none⟩⟩)]
          ["d"] = some ⟨"b", "t", none, none, none⟩ :=
  ⟨by decide,
    (claim_c1_lookup String.length _ ["d"] (by decide)).trans (by decide)⟩

/-- Claim C2: the fingerprint is invariant under every permutation of the
scope list. -/
theorem claim_c2_fingerprint_perm (hf : String → Nat) (l₁ l₂ : List String)
    (hp : l₁.Perm l₂) : fingerprint hf l₁ = fingerprint hf l₂ :=
  fingerprint_perm_aux hf hp

/-- Witness for C2 at a concrete permutation of a two-scope list. -/
theorem claim_c2_fingerprint_perm_witness :
    (["bar", "foo"] : List String).Perm ["foo", "bar"] ∧
      fingerprint String.length ["bar", "foo"] =
        fingerprint String.length ["foo", "bar"] :=
  ⟨by decide, claim_c2_fingerprint_perm String.length _ _ (by decide)⟩

/-- Claim C3: the fingerprint is the XOR-fold of the per-scope hashes without
deduplication, so a scope occurring an even number of times cancels: the
fingerprint equals that of the list with all occurrences of the scope
removed. -/
theorem claim_c3_even_scope_cancels (hf : String → Nat) (l : List String)
    (s : String) (he : Even (l.count s)) :
    fingerprint hf l = fingerprint hf (l.filter (fun x => !(x == s))) := by
  obtain ⟨m, hm⟩ := he
  have hperm := List.filter_append_perm (fun x => x == s) l
  have h1 := (fingerprint_perm_aux hf hperm).symm
  rw [h1, fingerprint_append, filter_beq_eq_replicate_count, hm,
    fingerprint_replicate_two_mul, Nat.zero_xor]

/-- Witness for C3: a scope occurring twice cancels from the fingerprint. -/
theorem claim_c3_even_scope_cancels_witness :
    Even ((["a", "b", "a"] : List String).count "a") ∧
      fingerprint String.length ["a", "b", "a"] =
        fingerprint String.length
          ((["a", "b", "a"] : List String).filter (fun x => !(x == "a"))) :=
  ⟨by decide, claim_c3_even_scope_cancels String.length _ _ (by decide)⟩

/-- Claim C4: `set(scopes, token)` inserts the new entry under exactly the
fingerprint of the given scopes, replacing any prior entry under that
fingerprint, and leaves every entry under any other fingerprint unchanged. -/
theorem claim_c4_set_frame (hf : String → Nat) (m : TokenMap)
    (scopes : List String) (token : Token) :
    mapGet (JSONTokens.set hf m scopes token) (fingerprint hf scopes) =
        some ⟨scopes, token⟩ ∧
      ∀ k', k' ≠ fingerprint hf scopes →
        mapGet (JSONTokens.set hf m scopes token) k' = mapGet m k' :=
  ⟨mapGet_mapInsert_self m _ _, fun _ hk' => mapGet_mapInsert_ne m _ _ hk'⟩

/-- Witness for C4 on a concrete store: the written fingerprint is 3; key 2
is untouched and key 5 stays absent. -/
theorem claim_c4_set_frame_witness :
    mapGet
        (JSONTokens.set String.length [(2, ⟨["ab"], ⟨"a", "t", none, none, none⟩⟩)]
          ["abc"] ⟨"c", "t", none, none, none⟩) 3 =
        some ⟨["abc"], ⟨"c", "t", none, none, none⟩⟩ ∧
      mapGet
        (JSONTokens.set String.length [(2, ⟨["ab"], ⟨"a", "t", none, none, none⟩⟩)]
          ["abc"] ⟨"c", "t", none, none, none⟩) 2 =
        mapGet [(2, ⟨["ab"], ⟨"a", "t", none, none, none⟩⟩)] 2 :=
  ⟨(claim_c4_set_frame String.length _ ["abc"] _).1,
    (claim_c4_set_frame String.length _ ["abc"] _).2 2 (by decide)⟩

/-- Claim C5: storing a token under scopes `S`, serializing the resulting
entry collection and reconstructing a fresh store from it (recomputing each
entry's fingerprint from its recorded scopes) yields a store whose lookup for
`S` returns the token unchanged.  The hypotheses are the store invariants
maintained by `new`, `set` and `load_from_file`. -/
theorem claim_c5_disk_round_trip (hf : String → Nat) (m : TokenMap)
    (scopes : List String) (token : Token) (hs : MapSorted m)
    (hw : WellKeyed hf m) :
    JSONTokens.get hf
        (JSONTokens.loadFromEntries hf
          (JSONTokens.allTokens (JSONTokens.set hf m scopes token)))
        scopes = some token := by
  have hs' : MapSorted (JSONTokens.set hf m scopes token) :=
    mapSorted_mapInsert hs _ _
  have hw' : WellKeyed hf (JSONTokens.set hf m scopes token) :=
    wellKeyed_set hw _ _
  rw [loadFromEntries_allTokens hf _ hs' hw']
  unfold JSONTokens.get JSONTokens.set
  rw [mapGet_mapInsert_self]

/-- Witness for C5: a concrete round trip through the serialized entry
collection starting from a store that already holds another entry. -/
theorem claim_c5_disk_round_trip_witness :
    MapSorted [(2, ⟨["ab"], ⟨"a", "t", none, none, none⟩⟩)] ∧
      WellKeyed String.length [(2, ⟨["ab"], ⟨"a", "t", none, none, none⟩⟩)] ∧
      JSONTokens.get String.length
          (JSONTokens.loadFromEntries String.length
            (JSONTokens.allTokens
              (JSONTokens.set String.length
                [(2, ⟨["ab"], ⟨"a", "t", none, none, none⟩⟩)]
                ["abc"] ⟨"c", "t", none, none, none⟩)))
          ["abc"] = some ⟨"c", "t", none, none, none⟩ :=
  ⟨by decide, by decide,
    claim_c5_disk_round_trip String.length _ ["abc"] _ (by decide) (by decide)⟩

/-- Claim C10: a lookup with an empty requested scope list returns some stored
token iff the map is non-empty: the empty list's fingerprint is 0, and when no
entry is keyed 0 the superset scan is vacuously satisfied by the first entry
in iteration order. -/
theorem claim_c10_empty_scopes (hf : String → Nat) :
    fingerprint hf [] = 0 ∧
      ∀ m : TokenMap, JSONTokens.get hf m [] ≠ none ↔ m ≠ [] := by
  refine ⟨rfl, ?_⟩
  intro m
  cases m with
  | nil => simp [JSONTokens.get, mapGet, supersetScan]
  | cons p rest =>
    obtain ⟨k, t⟩ := p
    constructor
    · intro _
      simp
    · intro _
      simp only [JSONTokens.get]
      cases hmg : mapGet ((k, t) :: rest) (fingerprint hf []) with
      | some jt => simp
      | none => simp [supersetScan]

/-- Claim C6: on a storage write error after a new token was obtained the
delegate is consulted with `is_write = true` and `Skip` still returns the
token, `Abort` returns a cache error, and `RetryAfter d` sleeps `d` and
restarts the whole call from the store lookup; on a storage read error the
delegate is consulted with `is_write = false` and both `Abort` and `Skip` fail
the call with a cache error while `RetryAfter d` sleeps `d` and retries the
lookup.  The write-error behaviour is stated for both paths that obtain a new
token (refresh and first fetch). -/
theorem claim_c6_storage_error_policy :
    (∀ (envs : Nat → IterEnv) (i fuel : Nat) (e : StorageErr),
      (envs i).storeGetRes = .error e →
      getTokenLoop envs i (fuel + 1) =
        match (envs i).storagePolicy false e with
        | .skip => some (.errCache, [])
        | .abort => some (.errCache, [])
        | .after d =>
          match getTokenLoop envs (i + 1) fuel with
          | none => none
          | some (r, ds) => some (r, d :: ds)) ∧
    (∀ (envs : Nat → IterEnv) (i fuel : Nat) (t t' : Token) (rt : String)
        (e : StorageErr),
      (envs i).storeGetRes = .ok (some t) →
      t.expiredAt (envs i).now = true →
      t.refresh_token = some rt →
      (envs i).refreshCall = .ok (.success t') →
      (envs i).setErr = some e →
      getTokenLoop envs i (fuel + 1) =
        match (envs i).storagePolicy true e with
        | .skip => some (.okTok t', [])
        | .abort => some (.errCache, [])
        | .after d =>
          match getTokenLoop envs (i + 1) fuel with
          | none => none
          | some (r, ds) => some (r, d :: ds)) ∧
    (∀ (envs : Nat → IterEnv) (i fuel : Nat) (t : Token) (e : StorageErr),
      (envs i).storeGetRes = .ok none →
      (envs i).fetchRes = .ok t →
      (envs i).setErr = some e →
      getTokenLoop envs i (fuel + 1) =
        match (envs i).storagePolicy true e with
        | .skip => some (.okTok t, [])
        | .abort => some (.errCache, [])
        | .after d =>
          match getTokenLoop envs (i + 1) fuel with
          | none => none
          | some (r, ds) => some (r, d :: ds)) := by
  refine ⟨?_, ?_, ?_⟩
  · intro envs i fuel e h
    simp only [getTokenLoop, getTokenIter, h]
    cases hpol : (envs i).storagePolicy false e with
    | skip => simp
    | abort => simp
    | after d => simp
  · intro envs i fuel t t' rt e h1 h2 h3 h4 h5
    simp only [getTokenLoop, getTokenIter, h1, h2, h3, h4, h5,
      Bool.not_true, Bool.false_eq_true, if_false]
    cases hpol : (envs i).storagePolicy true e with
    | skip => simp
    | abort => simp
    | after d => simp
  · intro envs i fuel t e h1 h2 h3
    simp only [getTokenLoop, getTokenIter, h1, h2, h3]
    cases hpol : (envs i).storagePolicy true e with
    | skip => simp
    | abort => simp
    | after d => simp

/-- Witness for C6: three concrete runs, one per scenario — a read error with
an aborting delegate, a refresh-path write error with a skipping delegate, and
a fetch-path write error with a delegate asking to retry after 3, so the call
sleeps 3 and succeeds on the restarted lookup. -/
theorem claim_c6_storage_error_policy_witness :
    getTokenLoop
        (fun _ =>
          { now := 0, storeGetRes := .error ⟨7⟩, refreshCall := .error (),
            fetchRes := .error (), setErr := none,
            storagePolicy := fun _ _ => .abort }) 0 2 =
        some (.errCache, []) ∧
      getTokenLoop
        (fun _ =>
          { now := 10, storeGetRes := .ok (some ⟨"old", "t", some "r", none, some 5⟩),
            refreshCall := .ok (.success ⟨"new", "t", none, none, none⟩),
            fetchRes := .error (), setErr := some ⟨1⟩,
            storagePolicy := fun w _ => if w then .skip else .abort }) 0 2 =
        some (.okTok ⟨"new", "t", none, none, none⟩, []) ∧
      getTokenLoop
        (fun i =>
          if i = 0 then
            { now := 0, storeGetRes := .ok none, refreshCall := .error (),
              fetchRes := .ok ⟨"f", "t", none, none, none⟩, setErr := some ⟨2⟩,
              storagePolicy := fun _ _ => .after 3 }
          else
            { now := 0, storeGetRes := .ok (some ⟨"f2", "t", none, none, none⟩),
              refreshCall := .error (), fetchRes := .error (), setErr := none,
              storagePolicy := fun _ _ => .abort }) 0 2 =
        some (.okTok ⟨"f2", "t", none, none, none⟩, [3]) :=
  ⟨(claim_c6_storage_error_policy.1 _ 0 1 ⟨7⟩ rfl).trans rfl,
    (claim_c6_storage_error_policy.2.1
        (fun _ =>
          { now := 10, storeGetRes := .ok (some ⟨"old", "t", some "r", none, some 5⟩),
            refreshCall := .ok (.success ⟨"new", "t", none, none, none⟩),
            fetchRes := .error (), setErr := some ⟨1⟩,
            storagePolicy := fun w _ => if w then .skip else .abort })
        0 1 ⟨"old", "t", some "r", none, some 5⟩ ⟨"new", "t", none, none, none⟩
        "r" ⟨1⟩ rfl (by decide) rfl rfl rfl).trans rfl,
    (claim_c6_storage_error_policy.2.2
        (fun i =>
          if i = 0 then
            { now := 0, storeGetRes := .ok none, refreshCall := .error (),
              fetchRes := .ok ⟨"f", "t", none, none, none⟩, setErr := some ⟨2⟩,
              storagePolicy := fun _ _ => .after 3 }
          else
            { now := 0, storeGetRes := .ok (some ⟨"f2", "t", none, none, none⟩),
              refreshCall := .error (), fetchRes := .error (), setErr := none,
              storagePolicy := fun _ _ => .abort })
        0 1 ⟨"f", "t", none, none, none⟩ ⟨2⟩ rfl rfl rfl).trans rfl⟩

/-- Claim C9: when the store lookup finds an expired token the refresh path
requires a refresh token: if the stored token carries one, its extraction
cannot fail and the iteration never ends in the panic outcome; if it carries
none, the call does not return normally (the `unwrap` panics). -/
theorem claim_c9_refresh_precondition :
    (∀ (env : IterEnv) (t : Token), env.storeGetRes = .ok (some t) →
      t.expiredAt env.now = true → t.refresh_token = none →
      getTokenIter env = .done .panicked) ∧
    (∀ (env : IterEnv) (t : Token) (rt : String), env.storeGetRes = .ok (some t) →
      t.expiredAt env.now = true → t.refresh_token = some rt →
      getTokenIter env ≠ .done .panicked) := by
  constructor
  · intro env t h1 h2 h3
    simp [getTokenIter, h1, h2, h3]
  · intro env t rt h1 h2 h3
    simp only [getTokenIter, h1, h2, h3, Bool.not_true, Bool.false_eq_true,
      if_false]
    cases env.refreshCall with
    | error e => simp
    | ok rr =>
      cases rr with
      | rrError => simp
      | rrRefreshError => simp
      | success t' =>
        cases env.setErr with
        | none => simp
        | some e =>
          cases hpol : env.storagePolicy true e <;> simp [hpol]

/-- Witness for C9: a concrete expired stored token without a refresh token
panics the iteration; the same token with a refresh token does not. -/
theorem claim_c9_refresh_precondition_witness :
    getTokenIter
        { now := 10, storeGetRes := .ok (some ⟨"old", "t", none, none, some 5⟩),
          refreshCall := .error (), fetchRes := .error (), setErr := none,
          storagePolicy := fun _ _ => .abort } = .done .panicked ∧
      getTokenIter
        { now := 10, storeGetRes := .ok (some ⟨"old", "t", some "r", none, some 5⟩),
          refreshCall := .error (), fetchRes := .error (), setErr := none,
          storagePolicy := fun _ _ => .abort } ≠ .done .panicked :=
  ⟨claim_c9_refresh_precondition.1 _ _ rfl rfl rfl,
    claim_c9_refresh_precondition.2 _ _ "r" rfl rfl rfl⟩

/-- Claim C7: if the token-endpoint response parses as a data object missing
any of `access_token`, `token_type`, `expires_in`, the request fails with the
bad-server-response error and no token is stored; if all three are present,
the returned token has its expiry timestamp set to `now + expires_in`, no
refresh token, and it is stored under the exact fingerprint of the requested
scopes. -/
theorem claim_c7_token_exchange :
    (∀ (now : Int) (signed : String)
        (respond : String → Except SAErr (JsonErrorOr TokenResponse))
        (r : TokenResponse),
      respond signed = .ok (.jsonData r) →
      (r.access_token = none ∨ r.token_type = none ∨ r.expires_in = none) →
      requestToken now (.ok signed) respond = .error .badServerResponse) ∧
    (∀ (hf : String → Nat) (cache : TokenMap) (now : Int)
        (signRes : Except Unit String)
        (respond : String → Except SAErr (JsonErrorOr TokenResponse))
        (scopes : List String) (e : SAErr),
      requestToken now signRes respond = .error e →
      (saGetToken hf cache now signRes respond scopes).2 = cache) ∧
    (∀ (now : Int) (signed : String)
        (respond : String → Except SAErr (JsonErrorOr TokenResponse))
        (r : TokenResponse) (a ty : String) (ei : Int),
      respond signed = .ok (.jsonData r) →
      r.access_token = some a → r.token_type = some ty → r.expires_in = some ei →
      requestToken now (.ok signed) respond =
        .ok { access_token := a, token_type := ty, refresh_token := none,
              expires_in := some ei, expires_in_timestamp := some (now + ei) }) ∧
    (∀ (hf : String → Nat) (cache : TokenMap) (now : Int)
        (signRes : Except Unit String)
        (respond : String → Except SAErr (JsonErrorOr TokenResponse))
        (scopes : List String) (token : Token),
      JSONTokens.get hf cache scopes = none →
      requestToken now signRes respond = .ok token →
      mapGet (saGetToken hf cache now signRes respond scopes).2
          (fingerprint hf scopes) = some ⟨scopes, token⟩) := by
  refine ⟨?_, ?_, ?_, ?_⟩
  · intro now signed respond r hresp hmiss
    obtain ⟨oa, ot, oe⟩ := r
    (cases oa <;> cases ot <;> cases oe <;> simp [requestToken, hresp])
    simp at hmiss
  · intro hf cache now signRes respond scopes e hreq
    unfold saGetToken
    cases hget : JSONTokens.get hf cache scopes with
    | some t =>
      by_cases hexp : t.expiredAt now
      · simp [hget, hexp, hreq]
      · simp [hget, hexp]
    | none => simp [hget, hreq]
  · intro now signed respond r a ty ei hresp ha hty hei
    have hr : r = ⟨some a, some ty, some ei⟩ := by
      obtain ⟨oa, ot, oe⟩ := r
      simp_all
    subst hr
    simp [requestToken, hresp]
  · intro hf cache now signRes respond scopes token hget hreq
    unfold saGetToken
    simp only [hget, hreq]
    exact mapGet_mapInsert_self cache _ _

/-- Witness for C7: a concrete response missing `expires_in` fails with the
bad-server-response error and leaves the cache unchanged; a complete response
yields the expected token and it is stored under fingerprint 2 of `["ab"]`. -/
theorem claim_c7_token_exchange_witness :
    requestToken 7 (.ok "jwt")
          (fun _ => .ok (.jsonData ⟨some "tok", some "Bearer", none⟩)) =
        .error .badServerResponse ∧
      (saGetToken String.length [] 7 (.ok "jwt")
          (fun _ => .ok (.jsonData ⟨some "tok", some "Bearer", none⟩)) ["ab"]).2 =
        [] ∧
      requestToken 7 (.ok "jwt")
          (fun _ => .ok (.jsonData ⟨some "tok", some "Bearer", some 100⟩)) =
        .ok ⟨"tok", "Bearer", none, some 100, some 107⟩ ∧
      mapGet
          (saGetToken String.length [] 7 (.ok "jwt")
            (fun _ => .ok (.jsonData ⟨some "tok", some "Bearer", some 100⟩))
            ["ab"]).2 2 =
        some ⟨["ab"], ⟨"tok", "Bearer", none, some 100, some 107⟩⟩ :=
  ⟨claim_c7_token_exchange.1 7 "jwt" _ _ rfl (Or.inr (Or.inr rfl)),
    claim_c7_token_exchange.2.1 String.length [] 7 _ _ ["ab"] .badServerResponse
      (claim_c7_token_exchange.1 7 "jwt" _ _ rfl (Or.inr (Or.inr rfl))),
    claim_c7_token_exchange.2.2.1 7 "jwt" _ _ "tok" "Bearer" 100 rfl rfl rfl rfl,
    claim_c7_token_exchange.2.2.2 String.length [] 7 _ _ ["ab"] _ rfl
      (claim_c7_token_exchange.2.2.1 7 "jwt" _ _ "tok" "Bearer" 100 rfl rfl rfl rfl)⟩

/-- Claim C8: for every key, scope list and optional subject, `Claims::new`
yields issuer equal to the key's client email, audience equal to the key's
token endpoint, issued-at equal to the current time, expiry equal to issued-at
plus 3600 seconds minus 5 seconds, the given subject, and the scope string
equal to the requested scopes joined by single spaces in caller-given
order. -/
theorem claim_c8_claims_fields (now : Int) (key : ServiceAccountKey)
    (scopes : List String) (subject : Option String) :
    (Claims.new now key scopes subject).iss = key.client_email ∧
      (Claims.new now key scopes subject).aud = key.token_uri ∧
      (Claims.new now key scopes subject).iat = now ∧
      (Claims.new now key scopes subject).exp = now + 3600 - 5 ∧
      (Claims.new now key scopes subject).subject = subject ∧
      (Claims.new now key scopes subject).scope = String.intercalate " " scopes :=
  ⟨rfl, rfl, rfl, rfl, rfl, rfl⟩
